import Mathlib

/-!
Verification development for the merge-and-normalize pipeline of the
IKEA store-lookup proxy (`server.js`).

The JavaScript source is shallowly embedded: JSON values are modelled by the
inductive `Json` (number literals are modelled as integers, which covers every
field the verified properties touch), JavaScript `undefined` is modelled as
`Option.none` where it can flow, stateful code (the TTL cache) is modelled by
explicit state passing, `Date.now()` by an explicit `now : Nat` parameter,
network responses by an explicit `JsResponse` record, and thrown exceptions by
`Except`.  String operations are modelled over ASCII text, matching the
upstream payloads in scope.
-/

/-- Model of a JavaScript/JSON value.  `num` carries an integer: all numeric
fields relevant here (HTTP statuses, stock quantities, `quantityPicker.max`)
are integral.  `obj` is an association list with distinct keys, mirroring a
JavaScript object. -/
inductive Json where
  | null : Json
  | bool : Bool → Json
  | num : Int → Json
  | str : String → Json
  | arr : List Json → Json
  | obj : List (String × Json) → Json
deriving Repr

/-- Field lookup on an object (`o.k`); `none` models `undefined` (missing
field, or property access on a non-object primitive). -/
def jget : Json → String → Option Json
  | .obj fields, k => go fields k
  | _, _ => none
where go : List (String × Json) → String → Option Json
  | [], _ => none
  | (k', v) :: rest, k => if k' = k then some v else go rest k

/-- JavaScript truthiness of a value. -/
def jsTruthy : Json → Bool
  | .null => false
  | .bool b => b
  | .num n => n != 0
  | .str s => s ≠ ""
  | .arr _ => true
  | .obj _ => true

/-- Whether `typeof v === "object"` (true for null, arrays and objects). -/
def jsIsObjType : Json → Bool
  | .null => true
  | .arr _ => true
  | .obj _ => true
  | _ => false

mutual

/-- JavaScript `String(v)` coercion: strings stay, numbers print in decimal,
arrays join their elements with commas (nulls printing as empty), plain
objects print as `[object Object]`. -/
def jsToString : Json → String
  | .null => "null"
  | .bool true => "true"
  | .bool false => "false"
  | .num n => Int.repr n
  | .str s => s
  | .arr l => jsArrJoin l
  | .obj _ => "[object Object]"

/-- `Array.prototype.toString`: elements joined by commas. -/
def jsArrJoin : List Json → String
  | [] => ""
  | [x] => jsElemStr x
  | x :: xs => jsElemStr x ++ "," ++ jsArrJoin xs
termination_by structural l => l

/-- Element rendering inside `Array.prototype.join`: null renders empty,
every other value renders by `String()` coercion (the cases are spelled out
so that the recursion stays structural). -/
def jsElemStr : Json → String
  | .null => ""
  | .bool true => "true"
  | .bool false => "false"
  | .num n => Int.repr n
  | .str s => s
  | .arr l => jsArrJoin l
  | .obj _ => "[object Object]"
termination_by structural v => v

end

mutual

/-- `JSON.stringify` for the value shapes arising here (strings escape quotes,
backslashes and the common control characters). -/
def jsonStringify : Json → String
  | .null => "null"
  | .bool true => "true"
  | .bool false => "false"
  | .num n => Int.repr n
  | .str s => "\"" ++ jsonEscape s.data ++ "\""
  | .arr l => "[" ++ jsonStringifyElems l ++ "]"
  | .obj f => "\x7b" ++ jsonStringifyFields f ++ "\x7d"
termination_by structural v => v

def jsonStringifyElems : List Json → String
  | [] => ""
  | [x] => jsonStringify x
  | x :: xs => jsonStringify x ++ "," ++ jsonStringifyElems xs
termination_by structural l => l

def jsonStringifyFields : List (String × Json) → String
  | [] => ""
  | [(k, v)] => "\"" ++ jsonEscape k.data ++ "\":" ++ jsonStringify v
  | (k, v) :: xs =>
      "\"" ++ jsonEscape k.data ++ "\":" ++ jsonStringify v ++ "," ++ jsonStringifyFields xs
termination_by structural l => l

def jsonEscape : List Char → String
  | [] => ""
  | c :: rest =>
      (if c = '"' then "\\\""
       else if c = '\\' then "\\\\"
       else if c = '\n' then "\\n"
       else if c = '\t' then "\\t"
       else if c = '\r' then "\\r"
       else String.mk [c]) ++ jsonEscape rest

end

/-- One step of an optional chain `x?.k`: `none` models `undefined`,
`some .null` models a present `null` (both are nullish for `??` and `?.`). -/
def jstepF (x : Option Json) (k : String) : Option Json :=
  match x with
  | none => none
  | some .null => none
  | some j => jget j k

/-- One step of an optional index `x?.[i]` (arrays index positionally, objects
fall back to the string key, strings index into their characters). -/
def jstepI (x : Option Json) (i : Nat) : Option Json :=
  match x with
  | none => none
  | some (.arr l) => l.get? i
  | some (.obj f) => jget (.obj f) (Nat.repr i)
  | some (.str s) => (s.data.get? i).map (fun c => Json.str (String.mk [c]))
  | some _ => none

/-- An optional chain of field accesses starting from a value. -/
def jchain (j : Json) (ks : List String) : Option Json :=
  ks.foldl jstepF (some j)

/-- JavaScript `a ?? b` on chain results (both `undefined` and `null` are
nullish). -/
def jalt (x y : Option Json) : Option Json :=
  match x with
  | none => y
  | some .null => y
  | some v => some v

/-- Terminal `?? null` of a chain: normalize `undefined` to `null`. -/
def jval (x : Option Json) : Json := x.getD .null

/-- JavaScript `a ?? b` on already null-normalized values. -/
def jnn (a b : Json) : Json :=
  match a with
  | .null => b
  | v => v

/-- `String(x)` on a possibly-`undefined` chain result. -/
def jsToStringU (x : Option Json) : String :=
  match x with
  | none => "undefined"
  | some v => jsToString v

/-- `String(x || "")`: empty string for falsy values, coercion otherwise. -/
def jsOrEmptyString (j : Json) : String :=
  if jsTruthy j then jsToString j else ""

/-- ASCII uppercasing, modelling `String.prototype.toUpperCase` on the ASCII
texts in scope. -/
def toUpperAscii (s : String) : String := String.mk (s.data.map Char.toUpper)

/-- ASCII lowercasing, modelling `String.prototype.toLowerCase`. -/
def toLowerAscii (s : String) : String := String.mk (s.data.map Char.toLower)

/-- Substring test over char lists (JavaScript `String.prototype.includes`). -/
def strContainsCs (hay pat : List Char) : Bool :=
  pat.isPrefixOf hay ||
    match hay with
    | [] => false
    | _ :: t => strContainsCs t pat

/-- JavaScript `hay.includes(pat)`. -/
def strContains (hay pat : String) : Bool := strContainsCs hay.data pat.data

/-- JavaScript `s.slice(0, n)`. -/
def jsSlice (s : String) (n : Nat) : String := String.mk (s.data.take n)

/-- Whitespace in the sense of the regex class `\s` (ASCII scope). -/
def isWsC (c : Char) : Bool :=
  c = ' ' || c = '\t' || c = '\n' || c = '\r' || c = '\x0b' || c = '\x0c'

/-- Word characters in the sense of the regex class `\w`: `[A-Za-z0-9_]`. -/
def isWordC (c : Char) : Bool :=
  ('a' ≤ c && c ≤ 'z') || ('A' ≤ c && c ≤ 'Z') || c.isDigit || c = '_'

/-- Collapse every whitespace run to a single space:
`replace(/\s+/g, " ")`.  The flag records whether the previous character was
inside a whitespace run. -/
def collapseWsGo (inWs : Bool) : List Char → List Char
  | [] => []
  | c :: rest =>
      if isWsC c then
        if inWs then collapseWsGo true rest else ' ' :: collapseWsGo true rest
      else
        c :: collapseWsGo false rest

/-- JavaScript `trim()` restricted to the collapsed text. -/
def trimWsCs (l : List Char) : List Char :=
  ((l.dropWhile isWsC).reverse.dropWhile isWsC).reverse

/-- `String(text).replace(/\s+/g, " ").trim()`. -/
def normalizeWs (s : String) : String :=
  String.mk (trimWsCs (collapseWsGo false s.data))

-- ---- Simple in-memory TTL cache (reduces hammering IKEA endpoints) ----

/-- A cache entry `{ expires, value }`. -/
structure CacheEntry where
  expires : Nat
  value : Json
deriving Repr

/-- The `Map` backing the cache, as an insertion-ordered association list with
distinct keys (the invariant a JavaScript `Map` maintains). -/
abbrev Cache := List (String × CacheEntry)

/-- `Map.prototype.get`. -/
def mapFind? : Cache → String → Option CacheEntry
  | [], _ => none
  | (k', e) :: rest, k => if k' = k then some e else mapFind? rest k

/-- `Map.prototype.set`: overwrite in place (keeping insertion order) when the
key exists, append otherwise. -/
def mapSet : Cache → String → CacheEntry → Cache
  | [], k, e => [(k, e)]
  | (k', e') :: rest, k, e =>
      if k' = k then (k, e) :: rest else (k', e') :: mapSet rest k e

/-- `Map.prototype.delete`. -/
def mapErase : Cache → String → Cache
  | [], _ => []
  | (k', e') :: rest, k => if k' = k then rest else (k', e') :: mapErase rest k

/-- `cache.keys().next().value`: the oldest-inserted key, if any. -/
def firstKey (c : Cache) : Option String := c.head?.map Prod.fst

/-- Default TTL (`CACHE_TTL_MS`, 60s with the default environment). -/
def CACHE_TTL_MS : Nat := 60000

/-- `cacheGet(key)` at time `now`: expired entries are treated as absent and
removed (lazy expiry).  Returns the value (if any) and the updated cache. -/
def cacheGet (now : Nat) (c : Cache) (key : String) : Option Json × Cache :=
  match mapFind? c key with
  | none => (none, c)
  | some e => if now > e.expires then (none, mapErase c key) else (some e.value, c)

/-- The bound check after `cache.set(...)`: if the size exceeds 500, delete
the first (oldest-inserted) key — but only when that key is truthy, i.e. not
the empty string (`if (firstKey) cache.delete(firstKey)`). -/
def cacheEvict (c' : Cache) : Cache :=
  if c'.length > 500 then
    match firstKey c' with
    | some fk => if fk ≠ "" then mapErase c' fk else c'
    | none => c'
  else c'

/-- `cacheSet(key, value, ttlMs)` at time `now`: insert/overwrite, then apply
the bound check. -/
def cacheSet (now : Nat) (key : String) (value : Json) (ttlMs : Nat) (c : Cache) : Cache :=
  cacheEvict (mapSet c key ⟨now + ttlMs, value⟩)

-- ---- Fetch layer ----

/-- The observable part of one upstream HTTP response: its status, its
`content-type` header (`none` when absent), its body as text, and the result
of parsing that body as JSON (`none` when parsing throws). -/
structure JsResponse where
  status : Nat
  contentType : Option String
  bodyText : String
  bodyJson : Option Json
deriving Repr

/-- `res.ok`: status in the 2xx range. -/
def is2xx (n : Nat) : Bool := 200 ≤ n && n ≤ 299

/-- The tagged outcome produced by `fetchJsonInfo`:
`Success = { ok: true, status, data }` (no `text` field) or
`Failure = { ok: false, status, data, text }`. -/
structure FetchOutcome where
  ok : Bool
  status : Nat
  data : Json
  text : Option String
deriving Repr

/-- The network portion of `fetchJson` (after a cache miss): throw on non-2xx
with the status and a 400-character body excerpt, throw on a 2xx body that is
not JSON, otherwise cache and return the parsed data.  The boolean records
that an upstream HTTP call was issued. -/
def fetchJsonNet (c : Cache) (now : Nat) (url : String) (resp : JsResponse) :
    Except String Json × Cache × Bool :=
  if is2xx resp.status then
    match resp.bodyJson with
    | some d => (.ok d, cacheSet now url d CACHE_TTL_MS c, true)
    | none => (.error ("Unexpected non-JSON body from " ++ url), c, true)
  else
    (.error ("HTTP " ++ Nat.repr resp.status ++ " from " ++ url ++ ": "
        ++ jsSlice resp.bodyText 400), c, true)

/-- `fetchJson(url)`: cache-first strict fetch.  A cached truthy value is
returned without any upstream call (`if (cached) return cached`); otherwise
the network path runs.  The boolean records whether an upstream call was
issued. -/
def fetchJson (c : Cache) (now : Nat) (url : String) (resp : JsResponse) :
    Except String Json × Cache × Bool :=
  match cacheGet now c url with
  | (some v, c₁) =>
      if jsTruthy v then (.ok v, c₁, false) else fetchJsonNet c₁ now url resp
  | (none, c₁) => fetchJsonNet c₁ now url resp

/-- `typeof data === "string" ? data : JSON.stringify(data)` (with the JS
variable `data` holding `null` when `bodyJson` failed to parse, so that
`JSON.stringify(null)` yields `"null"`). -/
def fallbackText (data : Json) : String :=
  match data with
  | .str s => s
  | d => jsonStringify d

/-- The network portion of `fetchJsonInfo` (after a cache miss).  The body is
decoded as JSON when the content type declares JSON, and otherwise read as
text with a best-effort JSON parse; a 2xx outcome caches non-null data and is
returned as a success (without a `text` field), any other outcome is returned
as a failure whose `text` is backfilled from the data when falsy. -/
def fetchJsonInfoNet (c : Cache) (now : Nat) (url : String) (resp : JsResponse) :
    FetchOutcome × Cache :=
  let ct := toLowerAscii (resp.contentType.getD "")
  let data : Json := resp.bodyJson.getD .null
  let text : Option String :=
    if strContains ct "application/json" then none else some resp.bodyText
  if is2xx resp.status then
    (⟨true, resp.status, data, none⟩,
      match data with
      | .null => c
      | d => cacheSet now url d CACHE_TTL_MS c)
  else
    let text₂ : String :=
      match text with
      | some t => if t = "" then fallbackText data else t
      | none => fallbackText data
    (⟨false, resp.status, data, some text₂⟩, c)

/-- `fetchJsonInfo(url)`: like `fetchJson` but never throws.  A cached truthy
value short-circuits as `{ ok: true, status: 200, data }`. -/
def fetchJsonInfo (c : Cache) (now : Nat) (url : String) (resp : JsResponse) :
    FetchOutcome × Cache :=
  match cacheGet now c url with
  | (some v, c₁) =>
      if jsTruthy v then (⟨true, 200, v, none⟩, c₁) else fetchJsonInfoNet c₁ now url resp
  | (none, c₁) => fetchJsonInfoNet c₁ now url resp

-- ---- Field/text extraction helpers ----

/-- `replace(/<[^>]*>/g, "")` over the characters: a `<` with a later `>`
drops everything through that first `>`; a `<` with no closing `>` is kept
verbatim (the regex cannot match there).  The structural fuel counts
characters and every step consumes at least one, so `fuel = length` never
runs out; it only serves to make the recursion structural (and hence
kernel-computable). -/
def stripHtmlGo : Nat → List Char → List Char
  | 0, _ => []
  | _ + 1, [] => []
  | fuel + 1, c :: rest =>
      if c = '<' then
        match rest.dropWhile (fun d => d ≠ '>') with
        | [] => c :: stripHtmlGo fuel rest
        | _ :: t => stripHtmlGo fuel t
      else c :: stripHtmlGo fuel rest

/-- `stripHtml(input)`: `(input ?? "").toString().replace(/<[^>]*>/g, "")`. -/
def stripHtml (input : Json) : String :=
  let cs := (match input with
    | .null => ""
    | v => jsToString v).data
  String.mk (stripHtmlGo cs.length cs)

/-- `parseNumberLike(s)`: `Number(String(s).replace(/,/g, ""))` with a
finiteness check, modelled on the digit-and-comma strings produced by the
quantity matchers (after removing commas, a string of digits parses to its
decimal value, the empty string to 0, anything else to NaN, i.e. `none`). -/
def parseNumberLike (s : String) : Option Int :=
  let stripped := s.data.filter (fun c => c ≠ ',')
  if stripped.all Char.isDigit then
    some (Int.ofNat (stripped.foldl (fun acc c => acc * 10 + (c.toNat - '0'.toNat)) 0))
  else none

/-- `isLikelyYear(n)`: a number in the calendar-year range 2000..2100. -/
def isLikelyYear (n : Int) : Bool := 2000 ≤ n && n ≤ 2100

/-- Strip a literal off the front of the text, if present. -/
def stripLit : List Char → List Char → Option (List Char)
  | [], cs => some cs
  | _ :: _, [] => none
  | p :: ps, c :: cs => if p = c then stripLit ps cs else none

/-- Match `\s+` (one or more whitespace characters, greedily — the regexes in
scope always follow `\s+` with a character that is not whitespace, so the
greedy maximal run is the unique viable match). -/
def matchWsPlus : List Char → Option (List Char)
  | [] => none
  | c :: rest => if isWsC c then some (rest.dropWhile isWsC) else none

/-- Match `[:\s]+` (same greedy reasoning: always followed by a digit). -/
def matchColonWsPlus : List Char → Option (List Char)
  | [] => none
  | c :: rest =>
      if c = ':' || isWsC c then some (rest.dropWhile (fun d => d = ':' || isWsC d))
      else none

/-- Match the capture group `(\d[\d,]*)` greedily and return its text. -/
def capNum : List Char → Option String
  | [] => none
  | c :: rest =>
      if c.isDigit then
        some (String.mk (c :: rest.takeWhile (fun d => d.isDigit || d = ',')))
      else none

/-- Run an anchored matcher at every position, left to right — the leftmost
match wins, as with JavaScript `String.prototype.match`. -/
def findFirstMatch (f : List Char → Option String) : List Char → Option String
  | [] => f []
  | c :: rest =>
      match f (c :: rest) with
      | some r => some r
      | none => findFirstMatch f rest

/-- Anchored matcher for `/there (?:are|is)\s+(\d[\d,]*)/i` (on lowercased
text).  The two alternatives start with distinct characters, so trying them in
order commits safely. -/
def thereAreAt (cs : List Char) : Option String := do
  let r ← stripLit "there ".data cs
  let r ←
    match stripLit "are".data r with
    | some r' => some r'
    | none => stripLit "is".data r
  let r ← matchWsPlus r
  capNum r

/-- Boundary test `\b` between a last matched character and the rest. -/
def boundaryAfter (last : Char) : List Char → Bool
  | [] => isWordC last
  | c :: _ => isWordC last != isWordC c

/-- The keyword alternation `(?:in stock|available|left)\b` of the second
contextual pattern (alternatives tried in order; their first characters are
distinct, so failure of a later `\b` cannot be rescued by another
alternative). -/
def stockKeywordAt (cs : List Char) : Bool :=
  match stripLit "in stock".data cs with
  | some r => boundaryAfter 'k' r
  | none =>
      match stripLit "available".data cs with
      | some r => boundaryAfter 'e' r
      | none =>
          match stripLit "left".data cs with
          | some r => boundaryAfter 't' r
          | none => false

/-- Anchored matcher for `/(\d[\d,]*)\s+(?:in stock|available|left)\b/i`:
the capture is the maximal digit-and-comma run (any shorter split leaves a
digit or comma where `\s` must match, so no backtracking is possible). -/
def numKeywordAt : List Char → Option String
  | [] => none
  | c :: rest =>
      if c.isDigit then
        let cap := c :: rest.takeWhile (fun d => d.isDigit || d = ',')
        let after := rest.dropWhile (fun d => d.isDigit || d = ',')
        match matchWsPlus after with
        | some r => if stockKeywordAt r then some (String.mk cap) else none
        | none => none
      else none

/-- Anchored matcher for `/in stock[:\s]+(\d[\d,]*)/i`. -/
def inStockColonAt (cs : List Char) : Option String := do
  let r ← stripLit "in stock".data cs
  let r ← matchColonWsPlus r
  capNum r

/-- Anchored matcher for `/stock[:\s]+(\d[\d,]*)/i`. -/
def stockColonAt (cs : List Char) : Option String := do
  let r ← stripLit "stock".data cs
  let r ← matchColonWsPlus r
  capNum r

/-- First match of each contextual regex against the (lowercased) normalized
text, in source order. -/
def contextualMatches (tl : List Char) : List (Option String) :=
  [findFirstMatch thereAreAt tl,
   findFirstMatch numKeywordAt tl,
   findFirstMatch inStockColonAt tl,
   findFirstMatch stockColonAt tl]

/-- The loop over the contextual patterns: the first match whose captured
number parses and is not a likely year is returned; a match that parses to a
year (or fails to parse) falls through to the next pattern. -/
def contextualLoop : List (Option String) → Option Int
  | [] => none
  | m :: rest =>
      match m with
      | some cap =>
          match parseNumberLike cap with
          | some n => if isLikelyYear n then contextualLoop rest else some n
          | none => contextualLoop rest
      | none => contextualLoop rest

/-- Largest `k ≥ 1` such that the word boundary `\b` holds after the first `k`
characters of the run (greedy backtracking of `(\d[\d,]*)\b`); `run` is the
maximal digit-and-comma run and `tail` the characters after it. -/
def bestTokenLen (run tail : List Char) : Nat → Option Nat
  | 0 => none
  | k + 1 =>
      let last := run.getD k ' '
      let next : Option Char := if k + 1 < run.length then run.get? (k + 1) else tail.head?
      let ok := match next with
        | none => isWordC last
        | some c => isWordC last != isWordC c
      if ok then some (k + 1) else bestTokenLen run tail k

/-- All matches of `/\b(\d[\d,]*)\b/g`, scanning left to right and resuming
after each match, with `prev` tracking the character before the current
position (for the leading `\b`).  The structural fuel counts characters and
every step consumes at least one, so `fuel = length` never runs out; it only
serves to make the recursion structural (and hence kernel-computable). -/
def tokensGo : Nat → Option Char → List Char → List String
  | 0, _, _ => []
  | _ + 1, _, [] => []
  | fuel + 1, prev, c :: rest =>
      if c.isDigit && (match prev with | none => true | some p => !isWordC p) then
        let run := c :: rest.takeWhile (fun d => d.isDigit || d = ',')
        let tail := rest.dropWhile (fun d => d.isDigit || d = ',')
        match bestTokenLen run tail run.length with
        | some k =>
            let tok := run.take k
            String.mk tok :: tokensGo fuel (some (tok.getLastD ' ')) (rest.drop (k - 1))
        | none => tokensGo fuel (some c) rest
      else tokensGo fuel (some c) rest

/-- The standalone integer tokens of the text (`t.matchAll(/\b(\d[\d,]*)\b/g)`,
first capture groups). -/
def standaloneTokens (t : String) : List String := tokensGo t.data.length none t.data

/-- The filtered standalone candidates: parsed tokens that are not likely
years (the `nums` array of the source). -/
def standaloneNums (t : String) : List Int :=
  (standaloneTokens t).filterMap fun cap =>
    match parseNumberLike cap with
    | some n => if isLikelyYear n then none else some n
    | none => none

/-- `extractQtyFromText(text)`: contextual stock-phrase patterns first (first
non-year hit wins), then the standalone-token scan, which answers only when
exactly one non-year candidate remains. -/
def extractQtyFromText (text : Json) : Option Int :=
  if !jsTruthy text then none
  else
    let t := normalizeWs (jsToString text)
    match contextualLoop (contextualMatches (toLowerAscii t).data) with
    | some n => some n
    | none =>
        match standaloneNums t with
        | [] => none
        | [n] => some n
        | _ => none

-- ---- Store-closed classification ----

/-- The type test of `isStoreClosedScanShop`:
`d && typeof d === "object" && String(d.type || "").toUpperCase() === "STORE_CLOSED"`
(the decoded body is a truthy object and the JavaScript string coercion of its
`type` field, uppercased, is `STORE_CLOSED`). -/
def typeCoercesToStoreClosed (d : Json) : Bool :=
  jsTruthy d && jsIsObjType d &&
    (toUpperAscii (match jget d "type" with
      | some v => if jsTruthy v then jsToString v else ""
      | none => "") == "STORE_CLOSED")

/-- `isStoreClosedScanShop(respInfo)`: a non-ok outcome with status exactly
503 whose decoded body is an object whose `type` coerces (via `String`,
uppercased) to `STORE_CLOSED`, or whose text contains the literal markers
`STORE_CLOSED` or `End of day`. -/
def isStoreClosedScanShop (respInfo : Option FetchOutcome) : Bool :=
  match respInfo with
  | none => false
  | some info =>
      if info.ok then false
      else if info.status ≠ 503 then false
      else if typeCoercesToStoreClosed info.data then true
      else
        let t := (info.text).getD ""
        strContains t "STORE_CLOSED" || strContains t "End of day"

-- ---- Misc presentation helpers used by the merge ----

/-- `titleCase(s)`: lowercase, then uppercase every character that starts a
word (`replace(/\b\w/g, c => c.toUpperCase())`). -/
def titleCaseGo (prev : Option Char) : List Char → List Char
  | [] => []
  | c :: rest =>
      (if isWordC c && (match prev with | none => true | some p => !isWordC p)
       then c.toUpper else c) :: titleCaseGo (some c) rest

def titleCase (s : String) : String :=
  String.mk (titleCaseGo none (toLowerAscii (jsOrEmptyString (.str s))).data)

/-- Uppercase A-Z test (the regex class `[A-Z]`). -/
def isUpperAZ (c : Char) : Bool := 'A' ≤ c && c ≤ 'Z'

/-- First match of `/\b[A-Z]{2,5}\d{2,5}\b/`: at each position with a word
boundary before it, the (maximal) uppercase-letter run must have length 2..5,
the following (maximal) digit run length 2..5, and a word boundary must
follow (shorter greedy splits always fail on the adjacent run character, so
only the maximal runs are viable). -/
def findLocCode (prev : Option Char) : List Char → Option String
  | [] => none
  | c :: rest =>
      if (match prev with | none => true | some p => !isWordC p) && isUpperAZ c then
        let letters := c :: rest.takeWhile isUpperAZ
        let afterL := rest.dropWhile isUpperAZ
        let digits := afterL.takeWhile Char.isDigit
        let afterD := afterL.dropWhile Char.isDigit
        if 2 ≤ letters.length && letters.length ≤ 5 &&
            2 ≤ digits.length && digits.length ≤ 5 &&
            (match afterD.head? with | none => true | some d => !isWordC d) then
          some (String.mk (letters ++ digits))
        else findLocCode (some c) rest
      else findLocCode (some c) rest

-- ---- CIA availability summary (summarizeCia and helpers) ----

/-- `String(x || "")` on a chain result (`String(a?.earliestDate || "")`). -/
def jsChainOrEmpty (x : Option Json) : String :=
  match x with
  | none => ""
  | some v => jsOrEmptyString v

/-- The comparator of `pickPrimaryRestock`: order by `earliestDate` then
`latestDate` (string comparison). -/
def restockLe (a b : Json) : Bool :=
  let ae := jsChainOrEmpty (jstepF (some a) "earliestDate")
  let be := jsChainOrEmpty (jstepF (some b) "earliestDate")
  if ae ≠ be then decide (ae ≤ be)
  else
    let al := jsChainOrEmpty (jstepF (some a) "latestDate")
    let bl := jsChainOrEmpty (jstepF (some b) "latestDate")
    decide (al ≤ bl)

/-- Stable insertion into a sorted list (the sort of `pickPrimaryRestock`). -/
def sortInsert (x : Json) : List Json → List Json
  | [] => [x]
  | y :: ys => if restockLe y x then y :: sortInsert x ys else x :: y :: ys

def sortRestocks : List Json → List Json
  | [] => []
  | x :: xs => sortInsert x (sortRestocks xs)

/-- `pickPrimaryRestock(restocks)`: the least element under the comparator
(`sorted[0] || null`). -/
def pickPrimaryRestock (restocks : List Json) : Json :=
  match restocks with
  | [] => .null
  | _ =>
      match (sortRestocks restocks).head? with
      | some v => if jsTruthy v then v else .null
      | none => .null

/-- `Array.isArray(x) ? x : []` on a chain result. -/
def jsArrayOrEmpty (x : Option Json) : List Json :=
  match x with
  | some (.arr l) => l
  | _ => []

/-- `normCiaOption(opt)`: normalized per-channel buying option. -/
def normCiaOption (opt : Option Json) : Json :=
  let inRange := jval (jstepF (jstepF opt "range") "inRange")
  let reason := jval (jstepF (jstepF opt "range") "reason")
  let messageType := jval (jstepF (jstepF (jstepF (jstepF opt "availability") "probability") "thisDay") "messageType")
  let quantity := jval (jstepF (jstepF opt "availability") "quantity")
  let restocks := jsArrayOrEmpty (jstepF (jstepF opt "availability") "restocks")
  .obj [("inRange", inRange),
        ("messageType", messageType),
        ("quantity", quantity),
        ("restocks", .arr restocks),
        ("primaryRestock", pickPrimaryRestock restocks),
        ("reason",
          if jsTruthy reason then
            .obj [("code", jval (jstepF (some reason) "code")),
                  ("name", jval (jstepF (some reason) "name")),
                  ("raw", reason)]
          else .null),
        ("rangeRaw", jval (jstepF opt "range"))]

/-- `computeDisplay(opt)` of `summarizeCia`. -/
def computeDisplay (opt : Option Json) : Json :=
  let available : Bool :=
    match jstepF opt "inRange" with
    | some (.bool true) => true
    | _ => false
  let reasonCode := if available then Json.null else jval (jstepF (jstepF opt "reason") "code")
  let reasonRaw :=
    if available then Json.null
    else jval (jalt (jstepF (jstepF opt "reason") "raw") (jstepF opt "rangeRaw"))
  let status := if available then jval (jstepF opt "messageType") else Json.str "UNAVAILABLE"
  .obj [("available", .bool available),
        ("status", status),
        ("reasonCode", reasonCode),
        ("reasonRaw", reasonRaw),
        ("quantity", jval (jstepF opt "quantity")),
        ("primaryRestock", jval (jstepF opt "primaryRestock"))]

/-- The store/RU entry search of `summarizeCia`
(`String(a?.itemKey?.itemNo) === String(article) && ...`). -/
def ciaEntryFor (list : List Json) (article unitType unitCode : String) : Option Json :=
  list.find? fun a =>
    jsToStringU (jstepF (jstepF (some a) "itemKey") "itemNo") = article &&
    jsToStringU (jstepF (jstepF (some a) "classUnitKey") "classUnitType") = unitType &&
    jsToStringU (jstepF (jstepF (some a) "classUnitKey") "classUnitCode") = unitCode

/-- The three normalized buying options of an entry. -/
def normBuying (buying : Json) : Json :=
  .obj [("cashCarry", normCiaOption (jget buying "cashCarry")),
        ("clickCollect", normCiaOption (jget buying "clickCollect")),
        ("homeDelivery", normCiaOption (jget buying "homeDelivery"))]

/-- `summarizeCia(ciaData, { store, article })`. -/
def summarizeCia (ciaData : Json) (store article : String) : Json :=
  let list := jsArrayOrEmpty (jstepF (some ciaData) "availabilities")
  let storeEntry := ciaEntryFor list article "STO" store
  let ruEntry := ciaEntryFor list article "RU" "AU"
  let storeBuying := jval (jstepF storeEntry "buyingOption")
  let ruBuying := jval (jstepF ruEntry "buyingOption")
  let storeNorm : Json := if jsTruthy storeBuying then normBuying storeBuying else .null
  let ruNorm : Json := if jsTruthy ruBuying then normBuying ruBuying else .null
  let computed : Json :=
    if jsTruthy storeNorm then
      .obj [("inStore", computeDisplay (jget storeNorm "cashCarry")),
            ("clickCollect", computeDisplay (jget storeNorm "clickCollect")),
            ("homeDelivery", computeDisplay (jget storeNorm "homeDelivery"))]
    else .null
  let storePart : Json :=
    match storeEntry with
    | some e =>
        if jsTruthy e then
          .obj [("type", jnn (jval (jstepF (jstepF (some e) "classUnitKey") "classUnitType")) (.str "STO")),
                ("code", jnn (jval (jstepF (jstepF (some e) "classUnitKey") "classUnitCode")) (.str store)),
                ("name", jval (jstepF (jstepF (some e) "classUnitKey") "classUnitName")),
                ("buyingOption", storeNorm)]
        else .null
    | none => .null
  let ruPart : Json :=
    match ruEntry with
    | some e =>
        if jsTruthy e then
          .obj [("type", jnn (jval (jstepF (jstepF (some e) "classUnitKey") "classUnitType")) (.str "RU")),
                ("code", jnn (jval (jstepF (jstepF (some e) "classUnitKey") "classUnitCode")) (.str "AU")),
                ("name", jnn (jval (jstepF (jstepF (some e) "classUnitKey") "classUnitName")) (.str "Australia")),
                ("buyingOption", ruNorm)]
        else .null
    | none => .null
  .obj [("store", storePart), ("ru", ruPart), ("computed", computed)]

-- ---- lookupMerged: URL templates ----

def productDetailsUrl (market lang article : String) : String :=
  "https://shop.api.ingka.ikea.com/range/v6/" ++ market ++ "/" ++ lang ++
    "/browse/product-details/" ++ article

def scanShopUrl (market lang store article : String) : String :=
  "https://shop.api.ingka.ikea.com/scan-shop/v6/" ++ market ++ "/" ++ lang ++
    "/stores/" ++ store ++ "/product/" ++ article ++ "/1"

def availabilityUrl (market lang article store : String) : String :=
  "https://shop.api.ingka.ikea.com/range/v6/" ++ market ++ "/" ++ lang ++
    "/browse/availability/product/" ++ article ++ "?storeIds=" ++ store

def ciaUrl (market article : String) : String :=
  "https://api.ingka.ikea.com/cia/availabilities/ru/" ++ market ++
    "?itemNos=" ++ article ++ "&expand=StoresList,Restocks"

/-- The `urls` record assembled at the top of `lookupMerged`. -/
structure Urls where
  productDetails : String
  scanShop : String
  availability : String
  cia : String
deriving Repr

def mkUrls (article store market lang : String) : Urls :=
  ⟨productDetailsUrl market lang article,
   scanShopUrl market lang store article,
   availabilityUrl market lang article store,
   ciaUrl market article⟩

/-- The settled result of the CIA fetch
(`fetchIngkaJson(...).then(data => ({ok:true,data})).catch(e => ({ok:false,error}))`). -/
inductive CiaRes where
  | ok (data : Json)
  | err (error : String)
deriving Repr

-- ---- lookupMerged: per-field extraction (the const bindings of the source) ----

/-- `scanInfo.ok ? scanInfo.data : null`. -/
def scanOf (scanInfo : FetchOutcome) : Json :=
  if scanInfo.ok then scanInfo.data else .null

def onlineTitleV (details : Json) : Json :=
  jval (jchain details ["product", "title"])

def onlineDescV (details : Json) : Json :=
  jval (jalt (jchain details ["product", "description"])
             (jchain details ["product", "typeName"]))

def onlineUrlV (details : Json) : Json :=
  jval (jchain details ["product", "productUrl"])

def onlineImgV (details : Json) : Json :=
  jval (jstepF (jstepI (jchain details ["product", "images"]) 0) "imageUrl")

def onlineRawV (details : Json) : Json :=
  jval (jchain details ["product", "pricePackage", "includingVat", "rawPrice"])

def onlinePrettyV (details : Json) : Json :=
  jval (jchain details ["product", "pricePackage", "includingVat", "sellingPrice"])

def storeRawV (scan : Json) : Json :=
  jval (jchain scan ["presentationSection", "productCard", "product",
                     "pricePackage", "includingVat", "rawPrice"])

def storePrettyV (scan : Json) : Json :=
  jval (jchain scan ["presentationSection", "productCard", "product",
                     "pricePackage", "includingVat", "sellingPrice"])

def scanTitleV (scan : Json) : Json :=
  jval (jchain scan ["presentationSection", "productCard", "product", "title"])

def scanDescV (scan : Json) : Json :=
  jval (jalt (jchain scan ["presentationSection", "productCard", "product", "description"])
             (jchain scan ["presentationSection", "productCard", "product", "typeName"]))

def scanImgV (scan : Json) : Json :=
  jval (jchain scan ["presentationSection", "productCard", "product", "imageUrl"])

def divisionV (scan : Json) : Json :=
  jval (jchain scan ["presentationSection", "productCard", "salesLocation",
                     "location", "division"])

def deptNameV (scan : Json) : Json :=
  jval (jalt
    (jstepF (jstepI (jchain scan ["presentationSection", "productCard", "salesLocation",
                                  "location", "department", "names"]) 0) "name")
    (jchain scan ["presentationSection", "productCard", "salesLocation",
                  "location", "department", "title"]))

def deptIdV (scan : Json) : Json :=
  jval (jchain scan ["presentationSection", "productCard", "salesLocation",
                     "location", "department", "id"])

def itemLocationTextV (scan : Json) : Json :=
  jval (jalt
    (jstepF (jstepI (jchain scan ["buyingInstructionSection", "salesPlaceList"]) 0)
      "itemLocation")
    (jchain scan ["presentationSection", "productCard", "stockInfo", "itemLocation"]))

/-- `itemLocationText ? stripHtml(itemLocationText) : null`. -/
def itemLocationTextPlainV (scan : Json) : Json :=
  let ilt := itemLocationTextV scan
  if jsTruthy ilt then .str (stripHtml ilt) else .null

/-- `division ? titleCase(String(division).replace(/_/g, " ")) : null`. -/
def floorPrettyV (scan : Json) : Json :=
  let division := divisionV scan
  if jsTruthy division then
    .str (titleCase (String.mk ((jsToString division).data.map
      (fun c => if c = '_' then ' ' else c))))
  else .null

/-- `let locationCode = deptId; if (codeMatch) locationCode = codeMatch[0]`. -/
def locationCodeV (scan : Json) : Json :=
  match findLocCode none (jsOrEmptyString (itemLocationTextPlainV scan)).data with
  | some m => .str m
  | none => deptIdV scan

def qtyMaxV (scan : Json) : Json :=
  jval (jchain scan ["buyingDecisionSection", "quantityPicker", "max"])

/-- `Array.isArray(avail) ? avail[0] : null`. -/
def av0Of (avail : Json) : Option Json :=
  match avail with
  | .arr l => l.get? 0
  | _ => some .null

def avDescRawV (avail : Json) : Json :=
  let av0 := av0Of avail
  jval (jalt (jstepF (jstepF av0 "status") "description")
       (jalt (jstepF (jstepF av0 "status") "text")
       (jalt (jstepF (jstepF (jstepF av0 "availability") "status") "description")
             (jstepF (jstepF (jstepF av0 "availability") "status") "text"))))

/-- `avDescRaw ? String(avDescRaw) : null`. -/
def avDescV (avail : Json) : Json :=
  let raw := avDescRawV avail
  if jsTruthy raw then .str (jsToString raw) else .null

/-- `avDesc ? stripHtml(avDesc) : null`. -/
def avDescPlainV (avail : Json) : Json :=
  let d := avDescV avail
  if jsTruthy d then .str (stripHtml d) else .null

def avStatusRawV (avail : Json) : Json :=
  let av0 := av0Of avail
  jval (jalt (jstepF (jstepF av0 "status") "code")
       (jalt (jstepF (jstepF (jstepF av0 "availability") "status") "code")
       (jalt (jstepF (jstepF av0 "status") "type")
             (jstepF (jstepF (jstepF av0 "availability") "status") "type"))))

def scanStatusRawV (scan : Json) : Json :=
  jval (jalt
    (jstepF (jstepI (jchain scan ["presentationSection", "productCard", "product",
                                  "availability"]) 0) "status")
    (jalt (jchain scan ["presentationSection", "productCard", "product",
                        "availability", "status"])
          (jchain scan ["presentationSection", "productCard", "product",
                        "availabilityStatus"])))

/-- `const stockStatus = avStatusRaw ?? scanStatusRaw ?? null`. -/
def stockStatusV (scan avail : Json) : Json :=
  jnn (avStatusRawV avail) (jnn (scanStatusRawV scan) .null)

/-- `const statusUpper = String(stockStatus || "").toUpperCase()`. -/
def statusUpperV (scan avail : Json) : String :=
  toUpperAscii (jsOrEmptyString (stockStatusV scan avail))

/-- `let avQty = extractQtyFromText(avDescPlain)`. -/
def avQtyV (avail : Json) : Option Int :=
  extractQtyFromText (avDescPlainV avail)

/-- `const qty = statusUpper.includes("OUT") ? 0 : (avQty ?? qtyMax ?? null)`. -/
def qtyV (scan avail : Json) : Json :=
  if strContains (statusUpperV scan avail) "OUT" then .num 0
  else
    jnn (match avQtyV avail with
         | some n => .num n
         | none => .null)
        (jnn (qtyMaxV scan) .null)

-- ---- lookupMerged: the normalized record and the operation itself ----

structure ProductR where
  title : Json
  description : Json
  productUrl : Json
  imageUrl : Json
deriving Repr

structure PriceEntryR where
  raw : Json
  text : Json
deriving Repr

structure PricesR where
  online : PriceEntryR
  store : PriceEntryR
deriving Repr

structure StockR where
  qty : Json
  status : Json
  description : Json
  descriptionText : Json
deriving Repr

structure LocationR where
  division : Json
  floor : Json
  department : Json
  code : Json
  itemLocationText : Json
  itemLocationTextText : Json
deriving Repr

structure CiaSectionR where
  ok : Bool
  error : Json
  url : String
  summary : Json
deriving Repr

/-- The `NormalizedRecord` assembled by `lookupMerged`. -/
structure NormalizedRecord where
  article : String
  market : String
  lang : String
  store : String
  storeClosed : Bool
  storeClosedMessage : Json
  urls : Urls
  product : ProductR
  prices : PricesR
  stock : StockR
  location : LocationR
  cia : CiaSectionR
deriving Repr

/-- The fixed store-closed banner message. -/
def storeClosedMessageText : String :=
  ":-( The store is currently closed (End of day handling). In-store price/location may be unavailable."

/-- The record literal returned by `lookupMerged` (before the final scan-shop
error check). -/
def mkRecord (article store market lang : String) (details : Json)
    (scanInfo : FetchOutcome) (avail : Json) (ciaRes : CiaRes) : NormalizedRecord :=
  let urls := mkUrls article store market lang
  let scan := scanOf scanInfo
  let storeClosed := isStoreClosedScanShop (some scanInfo)
  { article := article
    market := market
    lang := lang
    store := store
    storeClosed := storeClosed
    storeClosedMessage :=
      if storeClosed then .str storeClosedMessageText else .null
    urls := urls
    product :=
      { title := jnn (scanTitleV scan) (jnn (onlineTitleV details) .null)
        description := jnn (scanDescV scan) (jnn (onlineDescV details) .null)
        productUrl := jnn (onlineUrlV details) .null
        imageUrl := jnn (scanImgV scan) (jnn (onlineImgV details) .null) }
    prices :=
      { online := { raw := onlineRawV details, text := onlinePrettyV details }
        store := { raw := storeRawV scan, text := storePrettyV scan } }
    stock :=
      { qty := qtyV scan avail
        status := stockStatusV scan avail
        description := avDescV avail
        descriptionText := avDescPlainV avail }
    location :=
      { division := divisionV scan
        floor := floorPrettyV scan
        department := deptNameV scan
        code := locationCodeV scan
        itemLocationText := itemLocationTextV scan
        itemLocationTextText := itemLocationTextPlainV scan }
    cia :=
      { ok := match ciaRes with | .ok _ => true | .err _ => false
        error := match ciaRes with | .ok _ => .null | .err e => .str e
        url := urls.cia
        summary := match ciaRes with
          | .ok d => summarizeCia d store article
          | .err _ => .null } }

/-- `const debug = scanInfo.data ?? scanInfo.text ?? ""` followed by
`typeof debug === "string" ? debug.slice(0,400) : JSON.stringify(debug).slice(0,400)`. -/
def debugExcerpt (scanInfo : FetchOutcome) : String :=
  match scanInfo.data with
  | .null => jsSlice ((scanInfo.text).getD "") 400
  | .str s => jsSlice s 400
  | d => jsSlice (jsonStringify d) 400

/-- The error message thrown when the scan-shop resource failed without the
store-closed classification. -/
def scanErrMsg (scanInfo : FetchOutcome) (url : String) : String :=
  "HTTP " ++ Nat.repr scanInfo.status ++ " from " ++ url ++ ": " ++ debugExcerpt scanInfo

/-- `lookupMerged({article, store, market, lang})`, parametrized by the
settled results of the four concurrent fetches: the product-details and
availability JSON (these two were fetched strictly, so the lookup has already
failed if they did), the scan-shop outcome from `fetchJsonInfo`, and the CIA
result.  Throwing is modelled by `Except.error`. -/
def lookupMerged (article store market lang : String) (details : Json)
    (scanInfo : FetchOutcome) (avail : Json) (ciaRes : CiaRes) :
    Except String NormalizedRecord :=
  if scanInfo.ok = false ∧ isStoreClosedScanShop (some scanInfo) = false then
    .error (scanErrMsg scanInfo (scanShopUrl market lang store article))
  else
    .ok (mkRecord article store market lang details scanInfo avail ciaRes)

-- ---- Definitions used by the verified properties ----

/-- The keys of the cache in insertion order. -/
def cacheKeys (c : Cache) : List String := c.map Prod.fst

/-- The JavaScript `Map` representation invariant: keys are pairwise
distinct. -/
def nodupKeys (c : Cache) : Prop := (cacheKeys c).Nodup

/-- Claim-level predicate (following the specification wording): a stock
quantity value that is null or a non-negative integer. -/
def qtyNullOrNonneg (q : Json) : Prop :=
  q = .null ∨ ∃ n : Nat, q = .num (n : Int)

/-- Claim-level predicate (following the specification wording): the decoded
body has a `type` field equal to the string `STORE_CLOSED`
case-insensitively. -/
def typeEqualsStoreClosedCI (d : Json) : Prop :=
  ∃ s, jget d "type" = some (.str s) ∧ toUpperAscii s = "STORE_CLOSED"

/-- `n+1` repetitions of `a`: a supply of pairwise distinct, nonempty cache
keys. -/
def aKey (n : Nat) : String := String.mk (List.replicate (n + 1) 'a')

/-- 501 pairwise distinct nonempty keys. -/
def goodKeys : List String := (List.range 501).map aKey

/-- 501 pairwise distinct keys whose oldest is the empty string. -/
def badKeys : List String := "" :: (List.range 500).map aKey

-- ---- Lemmas about the cache map ----

theorem mapFind?_mapSet_self (c : Cache) (k : String) (e : CacheEntry) :
    mapFind? (mapSet c k e) k = some e := by
  induction c with
  | nil => simp [mapSet, mapFind?]
  | cons p rest ih =>
      obtain ⟨k', e'⟩ := p
      by_cases h : k' = k
      · simp [mapSet, h, mapFind?]
      · simp [mapSet, h, mapFind?, ih]

theorem mapFind?_mapErase_ne (c : Cache) {k' k : String} (h : k' ≠ k) :
    mapFind? (mapErase c k') k = mapFind? c k := by
  induction c with
  | nil => simp [mapErase]
  | cons p rest ih =>
      obtain ⟨k₀, e₀⟩ := p
      by_cases h0 : k₀ = k'
      · subst h0
        have hk : k₀ ≠ k := h
        simp [mapErase, mapFind?, if_neg hk]
      · by_cases h1 : k₀ = k
        · subst h1
          simp [mapErase, if_neg h0, mapFind?]
        · simp [mapErase, if_neg h0, mapFind?, if_neg h1, ih]

theorem mapSet_of_fresh (c : Cache) (k : String) (e : CacheEntry)
    (h : mapFind? c k = none) : mapSet c k e = c ++ [(k, e)] := by
  induction c with
  | nil => simp [mapSet]
  | cons p rest ih =>
      obtain ⟨k₀, e₀⟩ := p
      by_cases h0 : k₀ = k
      · simp [mapFind?, h0] at h
      · simp only [mapFind?, if_neg h0] at h
        simp [mapSet, if_neg h0, ih h]

theorem length_mapSet_found (c : Cache) (k : String) (e : CacheEntry)
    (h : (mapFind? c k).isSome) : (mapSet c k e).length = c.length := by
  induction c with
  | nil => simp [mapFind?] at h
  | cons p rest ih =>
      obtain ⟨k₀, e₀⟩ := p
      by_cases h0 : k₀ = k
      · simp [mapSet, h0]
      · simp only [mapFind?, if_neg h0] at h
        simp [mapSet, if_neg h0, ih h]

theorem mapFind?_append (c₁ c₂ : Cache) (k : String) :
    mapFind? (c₁ ++ c₂) k =
      (match mapFind? c₁ k with
       | some e => some e
       | none => mapFind? c₂ k) := by
  induction c₁ with
  | nil => simp [mapFind?]
  | cons p rest ih =>
      obtain ⟨k₀, e₀⟩ := p
      by_cases h0 : k₀ = k
      · simp [mapFind?, if_pos h0]
      · simp [mapFind?, if_neg h0, ih]

theorem mapSet_cons_self (k : String) (e₀ e : CacheEntry) (rest : Cache) :
    mapSet ((k, e₀) :: rest) k e = (k, e) :: rest := by
  simp [mapSet]

theorem mapSet_cons_ne (k₀ k : String) (e₀ e : CacheEntry) (rest : Cache)
    (h : k₀ ≠ k) : mapSet ((k₀, e₀) :: rest) k e = (k₀, e₀) :: mapSet rest k e := by
  simp [mapSet, h]

theorem mem_cacheKeys_mapSet (c : Cache) (k k' : String) (e : CacheEntry)
    (h : k' ∈ cacheKeys (mapSet c k e)) : k' = k ∨ k' ∈ cacheKeys c := by
  induction c with
  | nil => simpa [mapSet, cacheKeys] using h
  | cons p rest ih =>
      obtain ⟨k₀, e₀⟩ := p
      by_cases h0 : k₀ = k
      · subst h0
        rw [mapSet_cons_self] at h
        simp only [cacheKeys, List.map_cons, List.mem_cons] at h ⊢
        tauto
      · rw [mapSet_cons_ne _ _ _ _ _ h0] at h
        simp only [cacheKeys, List.map_cons, List.mem_cons] at h ⊢
        rcases h with h | h
        · tauto
        · rcases ih h with h | h <;> tauto

theorem nodupKeys_mapSet (c : Cache) (k : String) (e : CacheEntry)
    (hnd : nodupKeys c) : nodupKeys (mapSet c k e) := by
  induction c with
  | nil => simp [mapSet, nodupKeys, cacheKeys]
  | cons p rest ih =>
      obtain ⟨k₀, e₀⟩ := p
      simp only [nodupKeys, cacheKeys, List.map_cons, List.nodup_cons] at hnd
      by_cases h0 : k₀ = k
      · subst h0
        rw [mapSet_cons_self]
        simp only [nodupKeys, cacheKeys, List.map_cons, List.nodup_cons]
        exact hnd
      · rw [mapSet_cons_ne _ _ _ _ _ h0]
        simp only [nodupKeys, cacheKeys, List.map_cons, List.nodup_cons]
        refine ⟨?_, ih hnd.2⟩
        intro hmem
        rcases mem_cacheKeys_mapSet rest k k₀ e (by simpa [cacheKeys] using hmem) with h | h
        · exact h0 h
        · exact hnd.1 (by simpa [cacheKeys] using h)

theorem mapErase_sublist (c : Cache) (k : String) : (mapErase c k).Sublist c := by
  induction c with
  | nil => simp [mapErase]
  | cons p rest ih =>
      obtain ⟨k₀, e₀⟩ := p
      by_cases h0 : k₀ = k
      · simp only [mapErase, if_pos h0]
        exact List.sublist_cons_of_sublist _ (List.Sublist.refl _)
      · simp only [mapErase, if_neg h0]
        exact ih.cons₂ _

theorem nodupKeys_mapErase (c : Cache) (k : String) (hnd : nodupKeys c) :
    nodupKeys (mapErase c k) := by
  have hs : (cacheKeys (mapErase c k)).Sublist (cacheKeys c) :=
    (mapErase_sublist c k).map Prod.fst
  exact hnd.sublist hs

theorem mapFind?_eq_none_of_not_mem (c : Cache) (k : String)
    (h : k ∉ cacheKeys c) : mapFind? c k = none := by
  induction c with
  | nil => simp [mapFind?]
  | cons p rest ih =>
      obtain ⟨k₀, e₀⟩ := p
      simp only [cacheKeys, List.map_cons, List.mem_cons, not_or] at h
      simp only [mapFind?]
      rw [if_neg (fun hx => h.1 hx.symm)]
      exact ih (by simpa [cacheKeys] using h.2)

theorem mapFind?_mapErase_self (c : Cache) (k : String) (hnd : nodupKeys c) :
    mapFind? (mapErase c k) k = none := by
  induction c with
  | nil => simp [mapErase, mapFind?]
  | cons p rest ih =>
      obtain ⟨k₀, e₀⟩ := p
      simp only [nodupKeys, cacheKeys, List.map_cons, List.nodup_cons] at hnd
      by_cases h0 : k₀ = k
      · subst h0
        simp only [mapErase, if_pos rfl]
        exact mapFind?_eq_none_of_not_mem rest k₀ (by simpa [cacheKeys] using hnd.1)
      · simp only [mapErase, if_neg h0, mapFind?]
        exact ih hnd.2

theorem cacheSet_find_self (c : Cache) (k : String) (v : Json) (ttl now : Nat)
    (hlen : c.length ≤ 500) :
    mapFind? (cacheSet now k v ttl c) k = some ⟨now + ttl, v⟩ := by
  unfold cacheSet cacheEvict
  cases hf : mapFind? c k with
  | some e =>
      have hl : (mapSet c k ⟨now + ttl, v⟩).length = c.length :=
        length_mapSet_found c k _ (by simp [hf])
      rw [if_neg (by omega)]
      exact mapFind?_mapSet_self c k _
  | none =>
      have hset : mapSet c k ⟨now + ttl, v⟩ = c ++ [(k, ⟨now + ttl, v⟩)] :=
        mapSet_of_fresh c k _ hf
      by_cases h5 : (mapSet c k ⟨now + ttl, v⟩).length > 500
      · rw [if_pos h5]
        have hc : c.length = 500 := by
          rw [hset] at h5
          simp at h5
          omega
        cases c with
        | nil => simp at hc
        | cons p rest =>
            obtain ⟨k₀, e₀⟩ := p
            have hne : k₀ ≠ k := by
              intro hx
              simp [mapFind?, hx] at hf
            have hfk : firstKey (mapSet ((k₀, e₀) :: rest) k ⟨now + ttl, v⟩) = some k₀ := by
              rw [hset]
              simp [firstKey]
            simp only [hfk]
            by_cases hke : k₀ = ""
            · rw [if_neg (by simp [hke])]
              exact mapFind?_mapSet_self _ k _
            · rw [if_pos (by simp [hke])]
              rw [mapFind?_mapErase_ne _ hne]
              exact mapFind?_mapSet_self _ k _
      · rw [if_neg h5]
        exact mapFind?_mapSet_self c k _

theorem nodupKeys_cacheSet (c : Cache) (k : String) (v : Json) (ttl now : Nat)
    (hnd : nodupKeys c) : nodupKeys (cacheSet now k v ttl c) := by
  unfold cacheSet cacheEvict
  have h1 : nodupKeys (mapSet c k ⟨now + ttl, v⟩) := nodupKeys_mapSet c k _ hnd
  split
  · cases hfk : firstKey (mapSet c k ⟨now + ttl, v⟩) with
    | none => simpa [hfk] using h1
    | some fk =>
        simp only [hfk]
        split
        · exact nodupKeys_mapErase _ fk h1
        · exact h1
  · exact h1

/-- Claim C8: cache round-trip with lazy expiry.  After `set(key, value,
ttl)` on a well-formed cache (distinct keys, size within the 500 bound), a
`get(key)` at a time up to the entry expiry returns the value and leaves the
cache unchanged; a `get(key)` after the expiry returns absent and removes the
entry.  Consequently `fetchJson` on that key before expiry returns the cached
value without issuing an upstream call, and after expiry issues one. -/
theorem cache_roundtrip_lazy_expiry (c : Cache) (k : String) (v : Json)
    (ttl now t : Nat) (hnd : nodupKeys c) (hlen : c.length ≤ 500) :
    ((t ≤ now + ttl →
        cacheGet t (cacheSet now k v ttl c) k = (some v, cacheSet now k v ttl c)) ∧
     (now + ttl < t →
        (cacheGet t (cacheSet now k v ttl c) k).fst = none ∧
        mapFind? ((cacheGet t (cacheSet now k v ttl c) k).snd) k = none) ∧
     (t ≤ now + ttl → jsTruthy v = true → ∀ resp : JsResponse,
        fetchJson (cacheSet now k v ttl c) t k resp = (.ok v, cacheSet now k v ttl c, false)) ∧
     (now + ttl < t → ∀ resp : JsResponse,
        (fetchJson (cacheSet now k v ttl c) t k resp).snd.snd = true)) := by
  have hfind := cacheSet_find_self c k v ttl now hlen
  have hnd' := nodupKeys_cacheSet c k v ttl now hnd
  have hgetFresh : t ≤ now + ttl →
      cacheGet t (cacheSet now k v ttl c) k = (some v, cacheSet now k v ttl c) := by
    intro ht
    unfold cacheGet
    rw [hfind]
    simp only []
    rw [if_neg (by simp; omega)]
  have hgetStale : now + ttl < t →
      cacheGet t (cacheSet now k v ttl c) k
        = (none, mapErase (cacheSet now k v ttl c) k) := by
    intro ht
    unfold cacheGet
    rw [hfind]
    simp only []
    rw [if_pos (by simp; omega)]
  refine ⟨hgetFresh, ?_, ?_, ?_⟩
  · intro ht
    rw [hgetStale ht]
    exact ⟨rfl, mapFind?_mapErase_self _ k hnd'⟩
  · intro ht htr resp
    unfold fetchJson
    rw [hgetFresh ht]
    simp [htr]
  · intro ht resp
    unfold fetchJson
    rw [hgetStale ht]
    change (fetchJsonNet (mapErase (cacheSet now k v ttl c) k) t k resp).snd.snd = true
    unfold fetchJsonNet
    split
    · split <;> rfl
    · rfl

/-- Witness for claim C8 at a concrete input: an entry written at time 0 with
a 60s TTL is returned by a read at time 50, with no upstream call from
`fetchJson`; a read at time 60001 misses and removes it. -/
theorem cache_roundtrip_lazy_expiry_witness :
    (cacheGet 50 (cacheSet 0 "u" (Json.obj []) 60000 []) "u"
        = (some (Json.obj []), cacheSet 0 "u" (Json.obj []) 60000 [])) ∧
    (cacheGet 60001 (cacheSet 0 "u" (Json.obj []) 60000 []) "u").fst = none := by
  have h := cache_roundtrip_lazy_expiry [] "u" (Json.obj []) 60000 0 50
    (by simp [nodupKeys, cacheKeys]) (by simp)
  have h2 := cache_roundtrip_lazy_expiry [] "u" (Json.obj []) 60000 0 60001
    (by simp [nodupKeys, cacheKeys]) (by simp)
  exact ⟨h.1 (by omega), (h2.2.1 (by omega)).1⟩

theorem mapFind?_entries (keys : List String) (e : CacheEntry) (k : String) :
    mapFind? (keys.map fun k' => (k', e)) k = if k ∈ keys then some e else none := by
  induction keys with
  | nil => simp [mapFind?]
  | cons k' rest ih =>
      simp only [List.map_cons, mapFind?]
      by_cases h : k' = k
      · subst h
        simp
      · rw [if_neg h, ih]
        by_cases h2 : k ∈ rest
        · rw [if_pos h2, if_pos (List.mem_cons_of_mem _ h2)]
        · rw [if_neg h2, if_neg (by
            simp only [List.mem_cons]
            rintro (h1 | h1)
            · exact h h1.symm
            · exact h2 h1)]

theorem foldl_cacheSet_fresh (now ttl : Nat) (v : Json) (keys : List String) :
    ∀ (c : Cache), keys.Nodup → (∀ k ∈ keys, mapFind? c k = none) →
      c.length + keys.length ≤ 500 →
      keys.foldl (fun cc kk => cacheSet now kk v ttl cc) c
        = c ++ keys.map (fun k => (k, (⟨now + ttl, v⟩ : CacheEntry))) := by
  induction keys with
  | nil => intro c _ _ _; simp
  | cons k rest ih =>
      intro c hnd hfresh hlen
      simp only [List.foldl_cons, List.map_cons]
      have hf : mapFind? c k = none := hfresh k (List.mem_cons_self _ _)
      have hset : mapSet c k ⟨now + ttl, v⟩ = c ++ [(k, ⟨now + ttl, v⟩)] :=
        mapSet_of_fresh _ _ _ hf
      have hstep : cacheSet now k v ttl c = c ++ [(k, ⟨now + ttl, v⟩)] := by
        unfold cacheSet cacheEvict
        rw [hset, if_neg (by
          simp only [List.length_append, List.length_cons, List.length_nil] at hlen ⊢
          omega)]
      have hih := ih (c ++ [(k, ⟨now + ttl, v⟩)]) (List.nodup_cons.mp hnd).2
        (by
          intro k' hk'
          rw [mapFind?_append, hfresh k' (List.mem_cons_of_mem _ hk')]
          have hkk : k ≠ k' := fun h => (List.nodup_cons.mp hnd).1 (h ▸ hk')
          simp [mapFind?, hkk])
        (by
          simp only [List.length_append, List.length_cons, List.length_nil] at hlen ⊢
          omega)
      rw [hstep, hih]
      simp

/-- Claim C7 (amended): starting from an empty cache, inserting 501 distinct
keys whose oldest key is not the empty string leaves exactly 500 entries, the
oldest key absent and every other key present (one eviction by oldest
insertion order). -/
theorem cacheSet_eviction_501 (keys : List String) (v : Json) (ttl now : Nat)
    (hnd : keys.Nodup) (hlen : keys.length = 501)
    (hhead : ∀ k₀, keys.head? = some k₀ → k₀ ≠ "") :
    (keys.foldl (fun c k => cacheSet now k v ttl c) []).length = 500 ∧
    (∀ k₀, keys.head? = some k₀ →
      mapFind? (keys.foldl (fun c k => cacheSet now k v ttl c) []) k₀ = none) ∧
    (∀ k ∈ keys.tail,
      (mapFind? (keys.foldl (fun c k => cacheSet now k v ttl c) []) k).isSome = true) := by
  rcases keys.eq_nil_or_concat' with rfl | ⟨init, last, rfl⟩
  · simp at hlen
  · have hinitlen : init.length = 500 := by
      simp only [List.length_append, List.length_cons, List.length_nil] at hlen
      omega
    have hndsplit := List.nodup_append.mp hnd
    have hndi : init.Nodup := hndsplit.1
    have hni : last ∉ init := by
      intro hmem
      exact hndsplit.2.2 hmem (by simp)
    have hfold : init.foldl (fun c k => cacheSet now k v ttl c) []
        = init.map (fun k => (k, (⟨now + ttl, v⟩ : CacheEntry))) := by
      rw [foldl_cacheSet_fresh now ttl v init [] hndi (fun k _ => rfl) (by simp [hinitlen])]
      simp
    rw [List.foldl_append]
    simp only [List.foldl_cons, List.foldl_nil]
    rw [hfold]
    have hflast : mapFind? (init.map fun k => (k, (⟨now + ttl, v⟩ : CacheEntry))) last = none := by
      rw [mapFind?_entries, if_neg hni]
    have hset : mapSet (init.map fun k => (k, (⟨now + ttl, v⟩ : CacheEntry))) last
          ⟨now + ttl, v⟩
        = (init.map fun k => (k, (⟨now + ttl, v⟩ : CacheEntry))) ++ [(last, ⟨now + ttl, v⟩)] :=
      mapSet_of_fresh _ _ _ hflast
    cases init with
    | nil => simp at hinitlen
    | cons k₀ initRest =>
        have hk₀ : k₀ ≠ "" := hhead k₀ (by simp)
        have hlast_ne : last ≠ k₀ := by
          intro h
          exact hni (h ▸ List.mem_cons_self _ _)
        have hk₀_not : k₀ ∉ initRest := (List.nodup_cons.mp hndi).1
        have hstep : cacheSet now last v ttl
              ((k₀ :: initRest).map fun k => (k, (⟨now + ttl, v⟩ : CacheEntry)))
            = (initRest.map fun k => (k, (⟨now + ttl, v⟩ : CacheEntry)))
                ++ [(last, ⟨now + ttl, v⟩)] := by
          unfold cacheSet cacheEvict
          rw [hset]
          rw [if_pos (by
            simp only [List.map_cons, List.length_append, List.length_cons,
              List.length_map, List.length_nil]
            simp only [List.length_cons] at hinitlen
            omega)]
          have hfk : firstKey (((k₀ :: initRest).map fun k =>
              (k, (⟨now + ttl, v⟩ : CacheEntry))) ++ [(last, ⟨now + ttl, v⟩)]) = some k₀ := by
            simp [firstKey]
          simp only [hfk]
          rw [if_pos (by simp [hk₀])]
          simp only [List.map_cons, List.cons_append, mapErase]
          simp
        rw [hstep]
        refine ⟨?_, ?_, ?_⟩
        · simp only [List.length_append, List.length_map, List.length_cons, List.length_nil]
          simp only [List.length_cons] at hinitlen
          omega
        · intro k₁ hk₁
          have : k₁ = k₀ := by
            simp only [List.cons_append, List.head?_cons] at hk₁
            exact (Option.some.inj hk₁).symm
          subst this
          rw [mapFind?_append, mapFind?_entries, if_neg hk₀_not]
          simp [mapFind?, hlast_ne]
        · intro k₁ hk₁
          simp only [List.cons_append, List.tail_cons] at hk₁
          rw [mapFind?_append, mapFind?_entries]
          rcases List.mem_append.mp hk₁ with hmem | hmem
          · rw [if_pos hmem]
            rfl
          · simp only [List.mem_singleton] at hmem
            subst hmem
            have : k₁ ∉ initRest := by
              intro hx
              exact hni (List.mem_cons_of_mem _ hx)
            rw [if_neg this]
            simp [mapFind?]

theorem aKey_injective : Function.Injective aKey := by
  intro m n h
  have hd := congrArg String.data h
  simp only [aKey] at hd
  have hl := congrArg List.length hd
  simp only [List.length_replicate] at hl
  omega

theorem aKey_ne_empty (n : Nat) : aKey n ≠ "" := by
  intro h
  have hd := congrArg String.data h
  simp only [aKey] at hd
  have hl := congrArg List.length hd
  simp at hl

set_option maxRecDepth 4000 in
/-- Witness for claim C7 at a concrete input: inserting the 501 distinct
nonempty keys `goodKeys` into an empty cache leaves exactly 500 entries with
the oldest-inserted key absent. -/
theorem cacheSet_eviction_501_witness :
    goodKeys.Nodup ∧ goodKeys.length = 501 ∧
    (goodKeys.foldl (fun c k => cacheSet 0 k Json.null 60000 c) []).length = 500 ∧
    mapFind? (goodKeys.foldl (fun c k => cacheSet 0 k Json.null 60000 c) []) (aKey 0)
      = none := by
  have hnd : goodKeys.Nodup := (List.nodup_range 501).map aKey_injective
  have hlen : goodKeys.length = 501 := by simp [goodKeys]
  have hh : goodKeys.head? = some (aKey 0) := rfl
  have h := cacheSet_eviction_501 goodKeys Json.null 60000 0 hnd hlen
    (by
      intro k₀ hk₀
      rw [hh] at hk₀
      cases hk₀
      exact aKey_ne_empty 0)
  exact ⟨hnd, hlen, h.1, h.2.1 (aKey 0) hh⟩

/-- Helper for the C7 counterexample: for any 501 distinct keys whose
oldest-inserted (first) key is the empty string, folding `cacheSet` over an
empty cache leaves 501 entries — the falsy-string guard `if (firstKey)` skips
the delete on the 501st insert, so nothing is evicted. -/
theorem foldl_cacheSet_emptyHead (keys : List String) (v : Json) (ttl now : Nat)
    (hnd : keys.Nodup) (hlen : keys.length = 501)
    (hhead : keys.head? = some "") :
    (keys.foldl (fun c k => cacheSet now k v ttl c) []).length = 501 := by
  rcases keys.eq_nil_or_concat' with rfl | ⟨init, last, rfl⟩
  · simp at hlen
  · have hinitlen : init.length = 500 := by
      simp only [List.length_append, List.length_cons, List.length_nil] at hlen
      omega
    have hndsplit := List.nodup_append.mp hnd
    have hndi : init.Nodup := hndsplit.1
    have hni : last ∉ init := fun hmem => hndsplit.2.2 hmem (by simp)
    have hfold : init.foldl (fun c k => cacheSet now k v ttl c) []
        = init.map (fun k => (k, (⟨now + ttl, v⟩ : CacheEntry))) := by
      rw [foldl_cacheSet_fresh now ttl v init [] hndi (fun k _ => rfl) (by simp [hinitlen])]
      simp
    rw [List.foldl_append]
    simp only [List.foldl_cons, List.foldl_nil]
    rw [hfold]
    have hflast : mapFind? (init.map fun k => (k, (⟨now + ttl, v⟩ : CacheEntry))) last
        = none := by
      rw [mapFind?_entries, if_neg hni]
    have hset := mapSet_of_fresh _ last (⟨now + ttl, v⟩ : CacheEntry) hflast
    cases init with
    | nil => simp at hinitlen
    | cons k₀ initRest =>
        have hk₀ : k₀ = "" := by
          simp only [List.cons_append, List.head?_cons] at hhead
          exact Option.some.inj hhead
        subst hk₀
        unfold cacheSet cacheEvict
        rw [hset]
        rw [if_pos (by
          simp only [List.map_cons, List.length_append, List.length_cons,
            List.length_map, List.length_nil]
          simp only [List.length_cons] at hinitlen
          omega)]
        have hfk : firstKey (((("" : String) :: initRest).map fun k =>
            (k, (⟨now + ttl, v⟩ : CacheEntry))) ++ [(last, ⟨now + ttl, v⟩)]) = some "" := by
          simp [firstKey]
        simp only [hfk]
        rw [if_neg (by simp)]
        simp only [List.map_cons, List.length_append, List.length_cons,
          List.length_map, List.length_nil]
        simp only [List.length_cons] at hinitlen
        omega

/-- Counterexample to claim C7 as stated: `badKeys` is a list of 501 pairwise
distinct keys, yet inserting them into an empty cache leaves 501 entries —
nothing is evicted, because the oldest-inserted key is the empty string and
the falsy-string guard `if (firstKey)` skips the delete. -/
theorem cacheSet_eviction_skipped_cex :
    badKeys.Nodup ∧ badKeys.length = 501 ∧
    (badKeys.foldl (fun c k => cacheSet 0 k Json.null 60000 c) []).length = 501 := by
  have hnd : badKeys.Nodup := by
    simp only [badKeys, List.nodup_cons]
    refine ⟨?_, (List.nodup_range 500).map aKey_injective⟩
    intro hmem
    rcases List.mem_map.mp hmem with ⟨n, _, hn⟩
    exact aKey_ne_empty n hn
  have hlen : badKeys.length = 501 := by simp [badKeys]
  exact ⟨hnd, hlen, foldl_cacheSet_emptyHead badKeys Json.null 60000 0 hnd hlen rfl⟩

/-- Claim C5: `fetchJsonInfo` always returns a tagged outcome — a cached
truthy value or a 2xx response yield `Success`, any other response yields
`Failure` carrying the status, decoded data and a text — and it never throws
(it is a total function into `FetchOutcome`).  The cache is written only on a
2xx response whose decoded data is non-null; error bodies are never cached.
`fetchJson` (strict mode) throws on every non-2xx response. -/
theorem fetchLayer_tagged_outcome (c : Cache) (now : Nat) (url : String)
    (resp : JsResponse) :
    (∀ v, (cacheGet now c url).fst = some v → jsTruthy v = true →
        fetchJsonInfo c now url resp = (⟨true, 200, v, none⟩, (cacheGet now c url).snd)) ∧
    ((cacheGet now c url).fst = none → is2xx resp.status = true →
        (fetchJsonInfo c now url resp).fst
            = ⟨true, resp.status, resp.bodyJson.getD .null, none⟩ ∧
        (resp.bodyJson.getD .null = .null →
          (fetchJsonInfo c now url resp).snd = (cacheGet now c url).snd) ∧
        (∀ d, resp.bodyJson.getD .null = d → d ≠ .null →
          (fetchJsonInfo c now url resp).snd
            = cacheSet now url d CACHE_TTL_MS (cacheGet now c url).snd)) ∧
    ((cacheGet now c url).fst = none → is2xx resp.status = false →
        (fetchJsonInfo c now url resp).fst.ok = false ∧
        (fetchJsonInfo c now url resp).fst.status = resp.status ∧
        (fetchJsonInfo c now url resp).fst.data = resp.bodyJson.getD .null ∧
        (∃ t, (fetchJsonInfo c now url resp).fst.text = some t) ∧
        (fetchJsonInfo c now url resp).snd = (cacheGet now c url).snd) ∧
    ((cacheGet now c url).fst = none → is2xx resp.status = false →
        (fetchJson c now url resp).fst
          = .error ("HTTP " ++ Nat.repr resp.status ++ " from " ++ url ++ ": "
              ++ jsSlice resp.bodyText 400)) := by
  rcases hget : cacheGet now c url with ⟨g, c₂⟩
  refine ⟨?_, ?_, ?_, ?_⟩
  · intro v hv htr
    simp only [hget] at hv ⊢
    subst hv
    unfold fetchJsonInfo
    rw [hget]
    simp [htr]
  · intro hg h2
    simp only [hget] at hg ⊢
    subst hg
    unfold fetchJsonInfo
    rw [hget]
    unfold fetchJsonInfoNet
    refine ⟨?_, ?_, ?_⟩
    · simp [h2]
    · intro hd
      simp [h2, hd]
    · intro d hd hdne
      subst hd
      cases hx : resp.bodyJson.getD Json.null with
      | null => exact absurd hx hdne
      | bool b => simp [h2, hx]
      | num n => simp [h2, hx]
      | str s => simp [h2, hx]
      | arr l => simp [h2, hx]
      | obj f => simp [h2, hx]
  · intro hg h2
    simp only [hget] at hg ⊢
    subst hg
    unfold fetchJsonInfo
    rw [hget]
    unfold fetchJsonInfoNet
    simp [h2]
  · intro hg h2
    simp only [hget] at hg ⊢
    subst hg
    unfold fetchJson
    rw [hget]
    unfold fetchJsonNet
    simp [h2]

/-- Witness for claim C5 at concrete inputs: a 503 response yields a failure
outcome and leaves the cache unwritten, `fetchJson` throws on it; a 200
response with data caches it. -/
theorem fetchLayer_tagged_outcome_witness :
    (fetchJsonInfo [] 0 "u" ⟨503, none, "busy", none⟩).fst.ok = false ∧
    (fetchJsonInfo [] 0 "u" ⟨503, none, "busy", none⟩).snd = [] ∧
    (fetchJson [] 0 "u" ⟨503, none, "busy", none⟩).fst
      = .error ("HTTP " ++ Nat.repr 503 ++ " from " ++ "u" ++ ": " ++ jsSlice "busy" 400) ∧
    (fetchJsonInfo [] 0 "u" ⟨200, none, "1", some (.num 1)⟩).snd
      = cacheSet 0 "u" (.num 1) CACHE_TTL_MS [] := by
  have h1 := fetchLayer_tagged_outcome [] 0 "u" ⟨503, none, "busy", none⟩
  have h2 := fetchLayer_tagged_outcome [] 0 "u" ⟨200, none, "1", some (.num 1)⟩
  refine ⟨(h1.2.2.1 rfl rfl).1, ?_, h1.2.2.2 rfl rfl, ?_⟩
  · have := (h1.2.2.1 rfl rfl).2.2.2.2
    simpa using this
  · have := (h2.2.1 rfl rfl).2.2 (.num 1) rfl (by simp)
    simpa using this

theorem parseNumberLike_nonneg {s : String} {n : Int}
    (h : parseNumberLike s = some n) : 0 ≤ n := by
  simp only [parseNumberLike] at h
  split at h
  · cases h
    exact Int.ofNat_nonneg _
  · cases h

theorem contextualLoop_spec : ∀ (ms : List (Option String)) (n : Int),
    contextualLoop ms = some n → isLikelyYear n = false ∧ 0 ≤ n := by
  intro ms
  induction ms with
  | nil => intro n h; simp [contextualLoop] at h
  | cons m rest ih =>
      intro n h
      cases m with
      | none =>
          simp only [contextualLoop] at h
          exact ih n h
      | some cap =>
          simp only [contextualLoop] at h
          cases hp : parseNumberLike cap with
          | none =>
              simp only [hp] at h
              exact ih n h
          | some k =>
              simp only [hp] at h
              by_cases hy : isLikelyYear k
              · rw [if_pos hy] at h
                exact ih n h
              · rw [if_neg hy] at h
                cases h
                exact ⟨by simpa using hy, parseNumberLike_nonneg hp⟩

theorem standaloneNums_mem {t : String} {n : Int} (h : n ∈ standaloneNums t) :
    isLikelyYear n = false ∧ 0 ≤ n := by
  unfold standaloneNums at h
  rcases List.mem_filterMap.mp h with ⟨cap, _, hcap⟩
  cases hp : parseNumberLike cap with
  | none => simp [hp] at hcap
  | some m =>
      simp only [hp] at hcap
      by_cases hy : isLikelyYear m
      · rw [if_pos hy] at hcap
        simp at hcap
      · rw [if_neg hy] at hcap
        cases hcap
        exact ⟨by simpa using hy, parseNumberLike_nonneg hp⟩

theorem extractQtyFromText_spec {j : Json} {n : Int}
    (h : extractQtyFromText j = some n) : isLikelyYear n = false ∧ 0 ≤ n := by
  by_cases ht : jsTruthy j
  · simp only [extractQtyFromText, ht, Bool.not_true, Bool.false_eq_true, if_false] at h
    cases hc : contextualLoop
        (contextualMatches (toLowerAscii (normalizeWs (jsToString j))).data) with
    | some k =>
        simp only [hc] at h
        cases h
        exact contextualLoop_spec _ _ hc
    | none =>
        simp only [hc] at h
        cases hn : standaloneNums (normalizeWs (jsToString j)) with
        | nil => simp [hn] at h
        | cons a rest =>
            cases rest with
            | nil =>
                simp only [hn] at h
                cases h
                exact standaloneNums_mem (hn ▸ List.mem_cons_self _ _)
            | cons b rest₂ => simp [hn] at h
  · simp [extractQtyFromText, ht] at h

/-- Claim C4: `extractQtyFromText` resolves the three reference examples as
specified, and for every text on which no contextual stock-phrase pattern
matches and whose standalone integer tokens, after discarding calendar-year
values, number zero or more than one, it resolves no quantity. -/
theorem extractQtyFromText_examples_and_ambiguity :
    extractQtyFromText (.str "There are 145 in stock") = some 145 ∧
    extractQtyFromText (.str "Price valid until 2026") = none ∧
    extractQtyFromText (.str "42") = some 42 ∧
    (∀ s : String,
      contextualMatches (toLowerAscii (normalizeWs s)).data = [none, none, none, none] →
      (standaloneNums (normalizeWs s)).length ≠ 1 →
      extractQtyFromText (.str s) = none) := by
  refine ⟨rfl, rfl, rfl, ?_⟩
  intro s hctx hnum
  by_cases ht : jsTruthy (.str s)
  · simp only [extractQtyFromText, ht, Bool.not_true, Bool.false_eq_true, if_false]
    have hjs : jsToString (.str s) = s := rfl
    rw [hjs, hctx]
    have hloop : contextualLoop [none, none, none, none] = none := rfl
    rw [hloop]
    cases hn : standaloneNums (normalizeWs s) with
    | nil => rfl
    | cons a rest =>
        cases rest with
        | nil =>
            exfalso
            apply hnum
            rw [hn]
            rfl
        | cons b rest₂ => rfl
  · simp [extractQtyFromText, ht]

/-- Witness for claim C4 at a concrete input: on `"5 or 10 items"` no
contextual pattern matches and two non-year candidates remain, so the
resolver answers null. -/
theorem extractQtyFromText_examples_and_ambiguity_witness :
    contextualMatches (toLowerAscii (normalizeWs "5 or 10 items")).data
      = [none, none, none, none] ∧
    (standaloneNums (normalizeWs "5 or 10 items")).length = 2 ∧
    extractQtyFromText (.str "5 or 10 items") = none := by
  refine ⟨rfl, rfl, ?_⟩
  exact extractQtyFromText_examples_and_ambiguity.2.2.2 "5 or 10 items" rfl (by decide)

/-- Claim C10: `extractQtyFromText` never returns a number in the
calendar-year range 2000..2100 — the year filter guards the contextual path
as well as the standalone-token path — and in particular
`"There are 2026 in stock"` resolves to null rather than 2026. -/
theorem extractQtyFromText_never_year :
    (∀ (t : Json) (n : Int), extractQtyFromText t = some n →
        ¬(2000 ≤ n ∧ n ≤ 2100)) ∧
    extractQtyFromText (.str "There are 2026 in stock") = none := by
  refine ⟨?_, rfl⟩
  intro t n h hrange
  have hy := (extractQtyFromText_spec h).1
  simp only [isLikelyYear, Bool.and_eq_false_iff, decide_eq_false_iff_not] at hy
  rcases hy with hy | hy
  · exact hy hrange.1
  · exact hy hrange.2

/-- Witness for claim C10 at a concrete input: the resolver returns 145 on
the reference text, and 145 is outside the calendar-year range. -/
theorem extractQtyFromText_never_year_witness :
    extractQtyFromText (.str "There are 145 in stock") = some 145 ∧
    ¬(2000 ≤ (145 : Int) ∧ (145 : Int) ≤ 2100) :=
  ⟨rfl, extractQtyFromText_never_year.1 (.str "There are 145 in stock") 145 rfl⟩

-- ---- Lemmas about lookupMerged ----

theorem jnn_ne_null {a : Json} (h : a ≠ .null) (b : Json) : jnn a b = a := by
  cases a with
  | null => exact absurd rfl h
  | bool _ => rfl
  | num _ => rfl
  | str _ => rfl
  | arr _ => rfl
  | obj _ => rfl

theorem jnn_null_right (b : Json) : jnn b .null = b := by
  cases b <;> rfl

theorem lookupMerged_ok_elim {article store market lang : String} {details : Json}
    {scanInfo : FetchOutcome} {avail : Json} {ciaRes : CiaRes} {r : NormalizedRecord}
    (h : lookupMerged article store market lang details scanInfo avail ciaRes = .ok r) :
    r = mkRecord article store market lang details scanInfo avail ciaRes := by
  unfold lookupMerged at h
  split at h
  · cases h
  · cases h
    rfl

theorem jsSlice_length_le (s : String) (n : Nat) : (jsSlice s n).length ≤ n := by
  show (s.data.take n).length ≤ n
  rw [List.length_take]
  exact Nat.min_le_left _ _

theorem debugExcerpt_length_le (si : FetchOutcome) : (debugExcerpt si).length ≤ 400 := by
  obtain ⟨ok, status, data, text⟩ := si
  cases data with
  | null => exact jsSlice_length_le _ 400
  | bool b => exact jsSlice_length_le _ 400
  | num n => exact jsSlice_length_le _ 400
  | str s => exact jsSlice_length_le _ 400
  | arr l => exact jsSlice_length_le _ 400
  | obj f => exact jsSlice_length_le _ 400

-- ---- Claim theorems about lookupMerged ----

/-- Claim C9: whenever the resolved stock status text (uppercased) contains
the `OUT` marker, the returned record's `stock.qty` is exactly 0, regardless
of any extracted quantity or of the scan resource's maximum orderable
quantity. -/
theorem lookup_out_forces_qty_zero (article store market lang : String)
    (details : Json) (scanInfo : FetchOutcome) (avail : Json) (ciaRes : CiaRes)
    (r : NormalizedRecord)
    (h : lookupMerged article store market lang details scanInfo avail ciaRes = .ok r)
    (hout : strContains (statusUpperV (scanOf scanInfo) avail) "OUT" = true) :
    r.stock.qty = .num 0 := by
  have hr := lookupMerged_ok_elim h
  subst hr
  show qtyV (scanOf scanInfo) avail = .num 0
  unfold qtyV
  rw [if_pos hout]

/-- Witness for claim C9 at a concrete input: an availability status code of
`OUTOFSTOCK` forces quantity 0 even though the scan payload offers a maximum
orderable quantity of 5. -/
theorem lookup_out_forces_qty_zero_witness :
    (lookupMerged "1" "556" "au" "en" (.obj [])
        ⟨true, 200, .obj [("buyingDecisionSection",
          .obj [("quantityPicker", .obj [("max", .num 5)])])], none⟩
        (.arr [.obj [("status", .obj [("code", .str "OUTOFSTOCK")])]])
        (.err "x")).map (fun r => r.stock.qty) = .ok (.num 0) := by
  have h := lookup_out_forces_qty_zero "1" "556" "au" "en" (.obj [])
    ⟨true, 200, .obj [("buyingDecisionSection",
      .obj [("quantityPicker", .obj [("max", .num 5)])])], none⟩
    (.arr [.obj [("status", .obj [("code", .str "OUTOFSTOCK")])]])
    (.err "x") _ rfl rfl
  calc (lookupMerged "1" "556" "au" "en" (.obj [])
          ⟨true, 200, .obj [("buyingDecisionSection",
            .obj [("quantityPicker", .obj [("max", .num 5)])])], none⟩
          (.arr [.obj [("status", .obj [("code", .str "OUTOFSTOCK")])]])
          (.err "x")).map (fun r => r.stock.qty)
      = .ok ((mkRecord "1" "556" "au" "en" (.obj [])
          ⟨true, 200, .obj [("buyingDecisionSection",
            .obj [("quantityPicker", .obj [("max", .num 5)])])], none⟩
          (.arr [.obj [("status", .obj [("code", .str "OUTOFSTOCK")])]])
          (.err "x")).stock.qty) := rfl
    _ = .ok (.num 0) := by rw [h]

/-- Claim C6: in the merged record, for each of title, description and
imageUrl, the store-specific (scan) value wins when it is non-null and the
market-wide (product-details) value is used otherwise. -/
theorem lookup_merge_precedence (article store market lang : String)
    (details : Json) (scanInfo : FetchOutcome) (avail : Json) (ciaRes : CiaRes)
    (r : NormalizedRecord)
    (h : lookupMerged article store market lang details scanInfo avail ciaRes = .ok r) :
    ((scanTitleV (scanOf scanInfo) ≠ .null →
        r.product.title = scanTitleV (scanOf scanInfo)) ∧
     (scanTitleV (scanOf scanInfo) = .null →
        r.product.title = onlineTitleV details) ∧
     (scanDescV (scanOf scanInfo) ≠ .null →
        r.product.description = scanDescV (scanOf scanInfo)) ∧
     (scanDescV (scanOf scanInfo) = .null →
        r.product.description = onlineDescV details) ∧
     (scanImgV (scanOf scanInfo) ≠ .null →
        r.product.imageUrl = scanImgV (scanOf scanInfo)) ∧
     (scanImgV (scanOf scanInfo) = .null →
        r.product.imageUrl = onlineImgV details)) := by
  have hr := lookupMerged_ok_elim h
  subst hr
  refine ⟨?_, ?_, ?_, ?_, ?_, ?_⟩
  · intro hne
    show jnn (scanTitleV (scanOf scanInfo)) (jnn (onlineTitleV details) .null)
        = scanTitleV (scanOf scanInfo)
    rw [jnn_ne_null hne]
  · intro hnull
    show jnn (scanTitleV (scanOf scanInfo)) (jnn (onlineTitleV details) .null)
        = onlineTitleV details
    rw [hnull]
    rw [show jnn Json.null (jnn (onlineTitleV details) .null)
        = jnn (onlineTitleV details) .null from rfl]
    exact jnn_null_right _
  · intro hne
    show jnn (scanDescV (scanOf scanInfo)) (jnn (onlineDescV details) .null)
        = scanDescV (scanOf scanInfo)
    rw [jnn_ne_null hne]
  · intro hnull
    show jnn (scanDescV (scanOf scanInfo)) (jnn (onlineDescV details) .null)
        = onlineDescV details
    rw [hnull]
    rw [show jnn Json.null (jnn (onlineDescV details) .null)
        = jnn (onlineDescV details) .null from rfl]
    exact jnn_null_right _
  · intro hne
    show jnn (scanImgV (scanOf scanInfo)) (jnn (onlineImgV details) .null)
        = scanImgV (scanOf scanInfo)
    rw [jnn_ne_null hne]
  · intro hnull
    show jnn (scanImgV (scanOf scanInfo)) (jnn (onlineImgV details) .null)
        = onlineImgV details
    rw [hnull]
    rw [show jnn Json.null (jnn (onlineImgV details) .null)
        = jnn (onlineImgV details) .null from rfl]
    exact jnn_null_right _

/-- Witness for claim C6 at concrete inputs: with product-details title `A`
and scan title `B` the merged title is `B`; with the scan title absent it
falls back to `A`. -/
theorem lookup_merge_precedence_witness :
    (mkRecord "1" "556" "au" "en" (.obj [("product", .obj [("title", .str "A")])])
        ⟨true, 200, .obj [("presentationSection", .obj [("productCard",
          .obj [("product", .obj [("title", .str "B")])])])], none⟩
        (.arr []) (.err "x")).product.title = .str "B" ∧
    (mkRecord "1" "556" "au" "en" (.obj [("product", .obj [("title", .str "A")])])
        ⟨true, 200, .obj [], none⟩
        (.arr []) (.err "x")).product.title = .str "A" := by
  constructor
  · have h := (lookup_merge_precedence "1" "556" "au" "en"
      (.obj [("product", .obj [("title", .str "A")])])
      ⟨true, 200, .obj [("presentationSection", .obj [("productCard",
        .obj [("product", .obj [("title", .str "B")])])])], none⟩
      (.arr []) (.err "x") _ rfl).1 (fun hx => by cases hx)
    exact h.trans rfl
  · have h := (lookup_merge_precedence "1" "556" "au" "en"
      (.obj [("product", .obj [("title", .str "A")])])
      ⟨true, 200, .obj [], none⟩
      (.arr []) (.err "x") _ rfl).2.1 rfl
    exact h.trans rfl

/-- Claim C1 (amended): whenever the scan payload's
`buyingDecisionSection.quantityPicker.max` is null/absent or itself a
non-negative integer, every record returned by the lookup has a `stock.qty`
that is null or a non-negative integer (the out-of-stock branch yields 0 and
the text extractor only produces non-negative values); when `max` holds any
other value, `stock.qty` is that raw value verbatim. -/
theorem lookup_qty_null_or_nonneg (article store market lang : String)
    (details : Json) (scanInfo : FetchOutcome) (avail : Json) (ciaRes : CiaRes)
    (r : NormalizedRecord)
    (hmax : qtyNullOrNonneg (qtyMaxV (scanOf scanInfo)))
    (h : lookupMerged article store market lang details scanInfo avail ciaRes = .ok r) :
    qtyNullOrNonneg r.stock.qty := by
  have hr := lookupMerged_ok_elim h
  subst hr
  show qtyNullOrNonneg (qtyV (scanOf scanInfo) avail)
  unfold qtyV
  split
  · exact Or.inr ⟨0, rfl⟩
  · cases hq : avQtyV avail with
    | some k =>
        have hk : (0 : Int) ≤ k := by
          unfold avQtyV at hq
          exact (extractQtyFromText_spec hq).2
        rw [jnn_ne_null (a := Json.num k) (by intro hx; cases hx) _]
        exact Or.inr ⟨k.toNat, by rw [Int.toNat_of_nonneg hk]⟩
    | none =>
        rw [show jnn Json.null (jnn (qtyMaxV (scanOf scanInfo)) .null)
            = jnn (qtyMaxV (scanOf scanInfo)) .null from rfl]
        rw [jnn_null_right]
        exact hmax

/-- Witness for claim C1 at a concrete input: with no quantity signals at all
the record's `stock.qty` is null (hence within the invariant). -/
theorem lookup_qty_null_or_nonneg_witness :
    qtyNullOrNonneg (qtyMaxV (scanOf ⟨true, 200, .obj [], none⟩)) ∧
    qtyNullOrNonneg ((mkRecord "1" "556" "au" "en" (.obj [])
        ⟨true, 200, .obj [], none⟩ (.arr []) (.err "x")).stock.qty) := by
  have hmax : qtyNullOrNonneg (qtyMaxV (scanOf ⟨true, 200, .obj [], none⟩)) :=
    Or.inl rfl
  exact ⟨hmax,
    lookup_qty_null_or_nonneg "1" "556" "au" "en" (.obj [])
      ⟨true, 200, .obj [], none⟩ (.arr []) (.err "x") _ hmax rfl⟩

/-- Counterexample to claim C1 as stated: an upstream scan payload carrying
`quantityPicker.max = -1` flows into the returned record unvalidated, so the
lookup returns a record whose `stock.qty` is a negative number — neither null
nor a non-negative integer. -/
theorem lookup_qty_negative_cex :
    (lookupMerged "1" "556" "au" "en" (.obj [])
        ⟨true, 200, .obj [("buyingDecisionSection",
          .obj [("quantityPicker", .obj [("max", .num (-1))])])], none⟩
        (.arr []) (.err "cia down")).map (fun r => r.stock.qty)
      = .ok (.num (-1)) ∧
    ¬ qtyNullOrNonneg (.num (-1)) := by
  refine ⟨rfl, ?_⟩
  rintro (h | ⟨n, h⟩)
  · cases h
  · injection h with h'
    omega

/-- Claim C2 (amended): for every scan outcome whose `ok` flag is consistent
with its status (as `fetchJsonInfo` guarantees), the outcome is classified
store-closed if and only if its status is exactly 503 and either the decoded
body is an object whose `type` field coerces (JavaScript string coercion,
uppercased) to `STORE_CLOSED` — for string-valued `type` fields this is plain
case-insensitive equality — or its raw text contains the literal markers
`STORE_CLOSED` or `End of day`; and every store-closed outcome makes the
lookup return successfully with `storeClosed = true` instead of throwing. -/
theorem storeClosed_classification (o : FetchOutcome)
    (hok : o.ok = is2xx o.status) :
    (isStoreClosedScanShop (some o) = true ↔
      (o.status = 503 ∧
        (typeCoercesToStoreClosed o.data = true ∨
         strContains ((o.text).getD "") "STORE_CLOSED" = true ∨
         strContains ((o.text).getD "") "End of day" = true))) ∧
    (∀ (article store market lang : String) (details avail : Json) (ciaRes : CiaRes),
      isStoreClosedScanShop (some o) = true →
      lookupMerged article store market lang details o avail ciaRes
        = .ok (mkRecord article store market lang details o avail ciaRes) ∧
      (mkRecord article store market lang details o avail ciaRes).storeClosed = true) := by
  constructor
  · simp only [isStoreClosedScanShop]
    by_cases h1 : o.ok = true
    · rw [if_pos h1]
      constructor
      · intro h; cases h
      · rintro ⟨h503, _⟩
        rw [h503] at hok
        rw [h1] at hok
        cases hok
    · rw [if_neg h1]
      by_cases h503 : o.status = 503
      · rw [if_neg (by simp [h503])]
        by_cases htc : typeCoercesToStoreClosed o.data = true
        · rw [if_pos htc]
          simp [h503, htc]
        · rw [if_neg htc]
          simp only [Bool.or_eq_true]
          constructor
          · intro hm
            exact ⟨h503, Or.inr hm⟩
          · rintro ⟨_, hca | hm⟩
            · exact absurd hca htc
            · exact hm
      · rw [if_pos (by simp [h503])]
        constructor
        · intro h; cases h
        · rintro ⟨hc, _⟩
          exact absurd hc h503
  · intro article store market lang details avail ciaRes h
    constructor
    · unfold lookupMerged
      rw [if_neg (by
        rintro ⟨_, hc⟩
        rw [h] at hc
        cases hc)]
    · exact h

/-- Witness for claim C2 at a concrete input: a 503 outcome whose body is
`\x7b"type":"STORE_CLOSED"\x7d` is classified store-closed, and the lookup on
it returns a record with `storeClosed = true` instead of throwing. -/
theorem storeClosed_classification_witness :
    isStoreClosedScanShop
        (some ⟨false, 503, .obj [("type", .str "STORE_CLOSED")], none⟩) = true ∧
    lookupMerged "1" "556" "au" "en" (.obj [])
        ⟨false, 503, .obj [("type", .str "STORE_CLOSED")], none⟩ (.arr []) (.err "x")
      = .ok (mkRecord "1" "556" "au" "en" (.obj [])
          ⟨false, 503, .obj [("type", .str "STORE_CLOSED")], none⟩ (.arr []) (.err "x")) ∧
    (mkRecord "1" "556" "au" "en" (.obj [])
        ⟨false, 503, .obj [("type", .str "STORE_CLOSED")], none⟩ (.arr [])
        (.err "x")).storeClosed = true := by
  have h := (storeClosed_classification
      ⟨false, 503, .obj [("type", .str "STORE_CLOSED")], none⟩ rfl).2
      "1" "556" "au" "en" (.obj []) (.arr []) (.err "x") rfl
  exact ⟨rfl, h.1, h.2⟩

/-- Counterexample to claim C2 as stated: an actual `fetchJsonInfo` outcome
for a 503 JSON response whose body is `\x7b"type":["store_closed"]\x7d` is
classified store-closed by the code (JavaScript coerces the array to the
string `store_closed` before uppercasing), yet its `type` field is not a
string equal to `STORE_CLOSED` case-insensitively and its raw text contains
neither literal marker — so the claimed "if and only if" fails. -/
theorem storeClosed_classification_cex :
    isStoreClosedScanShop
        (some (fetchJsonInfo [] 0 "u"
          ⟨503, some "application/json", "",
            some (.obj [("type", .arr [.str "store_closed"])])⟩).fst) = true ∧
    (fetchJsonInfo [] 0 "u"
        ⟨503, some "application/json", "",
          some (.obj [("type", .arr [.str "store_closed"])])⟩).fst.status = 503 ∧
    (fetchJsonInfo [] 0 "u"
        ⟨503, some "application/json", "",
          some (.obj [("type", .arr [.str "store_closed"])])⟩).fst.data
      = .obj [("type", .arr [.str "store_closed"])] ∧
    ¬ typeEqualsStoreClosedCI
        ((fetchJsonInfo [] 0 "u"
          ⟨503, some "application/json", "",
            some (.obj [("type", .arr [.str "store_closed"])])⟩).fst.data) ∧
    strContains (((fetchJsonInfo [] 0 "u"
        ⟨503, some "application/json", "",
          some (.obj [("type", .arr [.str "store_closed"])])⟩).fst.text).getD "")
        "STORE_CLOSED" = false ∧
    strContains (((fetchJsonInfo [] 0 "u"
        ⟨503, some "application/json", "",
          some (.obj [("type", .arr [.str "store_closed"])])⟩).fst.text).getD "")
        "End of day" = false := by
  refine ⟨rfl, rfl, rfl, ?_, by decide, by decide⟩
  rintro ⟨s, hs, _⟩
  have hx : jget (.obj [("type", .arr [.str "store_closed"])]) "type"
      = some (.arr [.str "store_closed"]) := rfl
  rw [show (fetchJsonInfo [] 0 "u"
        ⟨503, some "application/json", "",
          some (.obj [("type", .arr [.str "store_closed"])])⟩).fst.data
      = .obj [("type", .arr [.str "store_closed"])] from rfl] at hs
  rw [hx] at hs
  cases hs

/-- Claim C3: every scan outcome that is non-2xx (with its `ok` flag
consistent with the status, as `fetchJsonInfo` guarantees) and is not
classified store-closed makes the lookup throw — no record is returned — and
the error message carries the upstream HTTP status and a body excerpt of at
most 400 characters. -/
theorem lookup_scanfail_throws (article store market lang : String)
    (details : Json) (scanInfo : FetchOutcome) (avail : Json) (ciaRes : CiaRes)
    (hok : scanInfo.ok = is2xx scanInfo.status)
    (h2 : is2xx scanInfo.status = false)
    (hc : isStoreClosedScanShop (some scanInfo) = false) :
    ∃ excerpt : String,
      lookupMerged article store market lang details scanInfo avail ciaRes
        = .error ("HTTP " ++ Nat.repr scanInfo.status ++ " from "
            ++ scanShopUrl market lang store article ++ ": " ++ excerpt) ∧
      excerpt.length ≤ 400 := by
  refine ⟨debugExcerpt scanInfo, ?_, debugExcerpt_length_le scanInfo⟩
  unfold lookupMerged
  rw [if_pos ⟨by rw [hok, h2], hc⟩]
  rfl

/-- Witness for claim C3 at a concrete input: a 404 scan outcome with body
text `nope` makes the lookup fail with a message naming status 404 and a
short excerpt. -/
theorem lookup_scanfail_throws_witness :
    (⟨false, 404, .null, some "nope"⟩ : FetchOutcome).ok = is2xx 404 ∧
    isStoreClosedScanShop (some ⟨false, 404, .null, some "nope"⟩) = false ∧
    (∃ excerpt : String,
      lookupMerged "40492331" "556" "au" "en" (.obj [])
          ⟨false, 404, .null, some "nope"⟩ (.arr []) (.err "x")
        = .error ("HTTP " ++ Nat.repr 404 ++ " from "
            ++ scanShopUrl "au" "en" "556" "40492331" ++ ": " ++ excerpt) ∧
      excerpt.length ≤ 400) := by
  refine ⟨rfl, rfl, ?_⟩
  exact lookup_scanfail_throws "40492331" "556" "au" "en" (.obj [])
    ⟨false, 404, .null, some "nope"⟩ (.arr []) (.err "x") rfl rfl rfl
